import Mathlib

/-!
Verification of the Medi pharmacy inventory system (src/app.py) against its
natural-language specification.

The SQLite-backed state is embedded shallowly: the three tables `medicines`,
`inventory` and `sales` become lists of structures, `REAL` columns become `ℚ`,
and `DATE` columns become integer day numbers (SQLite compares `YYYY-MM-DD`
strings lexicographically, which for well-formed dates coincides with the
order of day numbers; `date('now', '+N days')` is day-number addition).
`TIME` columns (`HH:MM:SS` strings) become seconds-of-day integers, again
order-isomorphic to the string order.  `datetime('now')` is modelled as a
civil date plus a seconds-of-day component where the code reads the time of
day (`julianday('now')` in `get_expiring_medicines`).
-/

/-- Row of the `medicines` table.  The schema (src/app.py `create_tables`)
has `name TEXT NOT NULL` and no uniqueness constraint apart from the integer
primary key. -/
structure Medicine where
  id : Nat
  name : String
  generic_name : Option String
  mtype : Option String
  power : Option String
  company : Option String
  price : Option String
deriving DecidableEq

/-- Row of the `inventory` table.  `initial_quantity` is a ghost field, not a
column of the schema: it records the `quantity` argument of the
`add_to_inventory` call that created the row and is never modified afterwards;
it exists only to state the stock-conservation invariant. -/
structure Lot where
  id : Nat
  medicine_id : Nat
  quantity : Int
  expiry_date : Int
  purchase_price : ℚ
  selling_price : ℚ
  purchase_date : Int
  initial_quantity : Int
deriving DecidableEq

/-- Row of the `sales` table (post-migration schema, with `customer_name`,
`sale_time` and `total_amount` present, as guaranteed by `create_tables`). -/
structure Sale where
  id : Nat
  inventory_id : Nat
  quantity : Int
  sale_price : ℚ
  customer_name : String
  sale_date : Int
  sale_time : Int
  total_amount : ℚ
deriving DecidableEq

/-- Database state: the three tables. -/
structure DB where
  medicines : List Medicine
  lots : List Lot
  sales : List Sale
deriving DecidableEq

def emptyDB : DB := ⟨[], [], []⟩

/-- Largest id occurring in a list of ids (0 when empty). -/
def maxId : List Nat → Nat
  | [] => 0
  | i :: is => max i (maxId is)

/-- Fresh rowid for an `INSERT` into `inventory`: SQLite assigns
max existing rowid + 1. -/
def freshLotId (s : DB) : Nat := maxId (s.lots.map (·.id)) + 1

/-- Fresh rowid for an `INSERT` into `sales`. -/
def freshSaleId (s : DB) : Nat := maxId (s.sales.map (·.id)) + 1

/-- Fresh rowid for an `INSERT` into `medicines`. -/
def freshMedId (s : DB) : Nat := maxId (s.medicines.map (·.id)) + 1

/-- Gregorian leap-year test, as used by Python's `datetime`. -/
def isLeapYear (y : Int) : Bool :=
  (y % 4 == 0 && y % 100 != 0) || (y % 400 == 0)

/-- Number of days in a month of the proleptic Gregorian calendar. -/
def daysInMonth (y m : Int) : Int :=
  if m == 2 then (if isLeapYear y then 29 else 28)
  else if m == 4 || m == 6 || m == 9 || m == 11 then 30
  else 31

/-- Validity check performed by `datetime.strptime(expiry_date, '%Y-%m-%d')`
in `add_to_inventory`: the parse succeeds exactly for well-formed calendar
dates with year between 1 and 9999. -/
def isValidDate (y m d : Int) : Bool :=
  1 ≤ y && y ≤ 9999 && 1 ≤ m && m ≤ 12 && 1 ≤ d && d ≤ daysInMonth y m

/-- Day number of a civil date (days since 1970-01-01, the standard
days-from-civil computation; `/` on `Int` is floor division for the positive
divisors used here). -/
def daysFromCivil (y m d : Int) : Int :=
  let y2 : Int := if m ≤ 2 then y - 1 else y
  let era : Int := y2 / 400
  let yoe : Int := y2 - era * 400
  let mp : Int := if 2 < m then m - 3 else m + 9
  let doy : Int := (153 * mp + 2) / 5 + d - 1
  let doe : Int := yoe * 365 + yoe / 4 - yoe / 100 + doy
  era * 146097 + doe - 719468

/-- Truncation toward zero of `n / 86400`, matching SQLite's
`CAST(... AS INTEGER)` applied to a day quantity expressed in seconds.
Both branches divide a nonnegative numerator, where every integer-division
convention agrees, so the definition is truncating division regardless of
the ambient `Div Int` instance. -/
def truncDiv86400 (n : Int) : Int :=
  if 0 ≤ n then n / 86400 else -((-n) / 86400)

/-- Value of `CAST(julianday(expiry) - julianday('now') AS INTEGER)` when
`expiry` is a bare date, today's date is `today` and the time of day is
`sec` seconds after midnight: the julian-day difference is
`expiry - today - sec/86400` days. -/
def daysRemaining (expiry today sec : Int) : Int :=
  truncDiv86400 ((expiry - today) * 86400 - sec)

/-- Candidate record of the medicines JSON file (`name` is required: the
loader indexes `med['name']`; the remaining attributes default to `NULL`). -/
structure MedRecord where
  name : String
  generic_name : Option String
  mtype : Option String
  power : Option String
  company : Option String
  price : Option String
deriving DecidableEq

/-- One `INSERT OR IGNORE INTO medicines ...` from `load_medicine_data`.
The `medicines` table has no uniqueness constraint on `name` (only the
integer primary key, which is auto-assigned), so `OR IGNORE` never fires and
the insert is unconditional. -/
def insertMedicine (s : DB) (r : MedRecord) : DB :=
  { s with
    medicines := s.medicines ++
      [{ id := freshMedId s, name := r.name, generic_name := r.generic_name,
         mtype := r.mtype, power := r.power, company := r.company,
         price := r.price }] }

/-- Model of `PharmacyInventorySystem.load_medicine_data` (src/app.py
lines 74-95): when the `medicines` table is empty, insert every candidate
record in order; otherwise do nothing. -/
def load_medicine_data (s : DB) (records : List MedRecord) : DB :=
  if s.medicines.isEmpty then records.foldl insertMedicine s else s

/-- Model of `PharmacyInventorySystem.add_to_inventory` (src/app.py lines
106-114).  The expiry-date string is modelled as its parsed `(y, m, d)`
triple; `strptime` raises `ValueError` (the `Except.error`) exactly when the
date is malformed.  The code performs no other validation: it does not check
that `medicine_id` exists (SQLite foreign keys are not enabled), nor the
signs of `quantity` or the prices.  On success it inserts one new row and
returns `lastrowid`. -/
def add_to_inventory (s : DB) (medicine_id : Nat) (quantity : Int)
    (ey em ed : Int) (purchase_price selling_price : ℚ) (today : Int) :
    Except Unit (Nat × DB) :=
  if isValidDate ey em ed then
    let lot : Lot :=
      { id := freshLotId s, medicine_id := medicine_id, quantity := quantity,
        expiry_date := daysFromCivil ey em ed,
        purchase_price := purchase_price, selling_price := selling_price,
        purchase_date := today, initial_quantity := quantity }
    .ok (freshLotId s, { s with lots := s.lots ++ [lot] })
  else
    .error ()

/-- Outcome of `sell_medicine`: `ok total` is the `(True, "Sold ...")`
return, `notFound` is `(False, "Inventory item not found")`, and
`insufficientStock` is `(False, "Not enough stock")`. -/
inductive SellOutcome where
  | ok (total : ℚ)
  | notFound
  | insufficientStock
deriving DecidableEq

/-- Model of `PharmacyInventorySystem.sell_medicine` (src/app.py lines
116-149).  `SELECT ... WHERE id = ?` with `fetchone()` is `List.find?`;
the `UPDATE ... WHERE id = ?` decrements every row matching the id.  The
failure branches return before any `INSERT`/`UPDATE`, so they leave the
state untouched.  There is no check that `quantity` is positive. -/
def sell_medicine (s : DB) (inventory_id : Nat) (quantity : Int)
    (customer_name : String) (sale_date sale_time : Int) : DB × SellOutcome :=
  match s.lots.find? (fun l => l.id == inventory_id) with
  | none => (s, .notFound)
  | some lot =>
    if lot.quantity < quantity then (s, .insufficientStock)
    else
      let selling_price := lot.selling_price
      let total_amount : ℚ := (quantity : ℚ) * selling_price
      let sale : Sale :=
        { id := freshSaleId s, inventory_id := inventory_id,
          quantity := quantity, sale_price := selling_price,
          customer_name := customer_name, sale_date := sale_date,
          sale_time := sale_time, total_amount := total_amount }
      let lots' := s.lots.map (fun l =>
        if l.id == inventory_id then { l with quantity := l.quantity - quantity } else l)
      ({ s with lots := lots', sales := s.sales ++ [sale] }, .ok total_amount)

/-- Insertion into a list sorted by the boolean comparator `le`. -/
def insertSorted (le : α → α → Bool) (a : α) : List α → List α
  | [] => [a]
  | b :: l => if le a b then a :: b :: l else b :: insertSorted le a l

/-- Insertion sort with comparator `le`; models SQL `ORDER BY` (which
promises only sortedness of the result). -/
def sortByLe (le : α → α → Bool) : List α → List α
  | [] => []
  | a :: l => insertSorted le a (sortByLe le l)

/-- Row returned by `get_inventory`: lot id, medicine name, quantity,
expiry date, both prices and the derived status string. -/
structure InvRow where
  lot_id : Nat
  name : String
  quantity : Int
  expiry_date : Int
  purchase_price : ℚ
  selling_price : ℚ
  status : String
deriving DecidableEq

/-- Status `CASE` expression of `get_inventory`, evaluated on a joined row. -/
def invStatus (threshold today : Int) (quantity expiry : Int) : String :=
  if quantity ≤ threshold then "LOW"
  else if expiry < today + 30 then "NEAR_EXPIRY"
  else "OK"

/-- Comparator for `ORDER BY i.expiry_date` (ascending). -/
def invRowLe (a b : InvRow) : Bool := a.expiry_date ≤ b.expiry_date

/-- Model of `PharmacyInventorySystem.get_inventory` (src/app.py lines
151-166): inner join of `inventory` with `medicines`, rows with
`quantity > 0`, the status `CASE`, ordered by expiry date ascending. -/
def get_inventory (s : DB) (today : Int) (low_stock_threshold : Int) :
    List InvRow :=
  let joined := s.lots.flatMap (fun l =>
    (s.medicines.filter (fun m => m.id == l.medicine_id)).map (fun m =>
      { lot_id := l.id, name := m.name, quantity := l.quantity,
        expiry_date := l.expiry_date, purchase_price := l.purchase_price,
        selling_price := l.selling_price,
        status := invStatus low_stock_threshold today l.quantity l.expiry_date
        : InvRow }))
  sortByLe invRowLe (joined.filter (fun r => 0 < r.quantity))

/-- The Python signature defaults `low_stock_threshold` to 10. -/
def get_inventory_default (s : DB) (today : Int) : List InvRow :=
  get_inventory s today 10

/-- Row of `get_sales_report` (post-migration branch): sale date/time,
medicine name, customer, quantity, total amount and derived profit. -/
structure ReportRow where
  sale_date : Int
  sale_time : Int
  name : String
  customer_name : String
  quantity : Int
  total_amount : ℚ
  profit : ℚ
deriving DecidableEq

/-- Comparator for `ORDER BY s.sale_date DESC, s.sale_time DESC`. -/
def reportRowLe (a b : ReportRow) : Bool :=
  b.sale_date < a.sale_date ||
    (b.sale_date == a.sale_date && b.sale_time ≤ a.sale_time)

/-- Date cutoff chosen by `get_sales_report` from the period string, with
today's civil date `(y, m, d)`: `date('now')` is the current day number,
`date('now', '-7 days')` subtracts 7, `date('now', 'start of month')` is day
1 of the current month; unrecognized periods select no cutoff. -/
def periodCutoff (y m d : Int) (period : String) : Option Int :=
  if period == "daily" then some (daysFromCivil y m d)
  else if period == "weekly" then some (daysFromCivil y m d - 7)
  else if period == "monthly" then some (daysFromCivil y m 1)
  else none

/-- Join of `sales` with `inventory` and `medicines` used by the report. -/
def reportJoin (s : DB) : List ReportRow :=
  s.sales.flatMap (fun sl =>
    (s.lots.filter (fun l => l.id == sl.inventory_id)).flatMap (fun l =>
      (s.medicines.filter (fun m => m.id == l.medicine_id)).map (fun m =>
        { sale_date := sl.sale_date, sale_time := sl.sale_time,
          name := m.name, customer_name := sl.customer_name,
          quantity := sl.quantity, total_amount := sl.total_amount,
          profit := (sl.quantity : ℚ) * (sl.sale_price - l.purchase_price)
          : ReportRow })))

/-- Model of `PharmacyInventorySystem.get_sales_report` (src/app.py lines
168-206), in the state produced by `create_tables` where the migrated
columns exist so the first SQL branch runs: returns `[]` for an
unrecognized period, else the joined rows with `sale_date >= cutoff`,
ordered by sale date then sale time, both descending. -/
def get_sales_report (s : DB) (y m d : Int) (period : String) :
    List ReportRow :=
  match periodCutoff y m d period with
  | none => []
  | some c =>
    sortByLe reportRowLe ((reportJoin s).filter (fun r => c ≤ r.sale_date))

/-- Row of `get_expiring_medicines`: medicine name, quantity, expiry date
and the computed `days_remaining`. -/
structure ExpRow where
  name : String
  quantity : Int
  expiry_date : Int
  days_remaining : Int
deriving DecidableEq

/-- Comparator for `ORDER BY i.expiry_date` (ascending). -/
def expRowLe (a b : ExpRow) : Bool := a.expiry_date ≤ b.expiry_date

/-- Model of `PharmacyInventorySystem.get_expiring_medicines` (src/app.py
lines 208-218): inner join of `inventory` with `medicines`,
`WHERE date(expiry) BETWEEN date('now') AND date('now', '+days days')`
(both bounds inclusive, no quantity filter), each row annotated with
`CAST(julianday(expiry) - julianday('now') AS INTEGER)` where
`julianday('now')` includes the current time of day `sec` (seconds after
midnight, `0 ≤ sec < 86400`), ordered by expiry date ascending. -/
def get_expiring_medicines (s : DB) (today sec : Int) (days : Nat) :
    List ExpRow :=
  let joined := s.lots.flatMap (fun l =>
    (s.medicines.filter (fun m => m.id == l.medicine_id)).map (fun m =>
      { name := m.name, quantity := l.quantity, expiry_date := l.expiry_date,
        days_remaining := daysRemaining l.expiry_date today sec : ExpRow }))
  sortByLe expRowLe (joined.filter (fun r =>
    today ≤ r.expiry_date && r.expiry_date ≤ today + (days : Int)))

/-- An API call against the engine, with the clock readings it makes. -/
inductive Op where
  | addLot (medicine_id : Nat) (quantity : Int) (ey em ed : Int)
      (purchase_price selling_price : ℚ) (today : Int)
  | sell (inventory_id : Nat) (quantity : Int) (customer_name : String)
      (sale_date sale_time : Int)

/-- State transition of one call; Python exceptions and failure returns
leave the database unchanged. -/
def runOp (s : DB) : Op → DB
  | .addLot mid q ey em ed pp sp today =>
    match add_to_inventory s mid q ey em ed pp sp today with
    | .ok (_, s') => s'
    | .error _ => s
  | .sell i q cn d t => (sell_medicine s i q cn d t).1

/-- State after a sequence of calls starting from the empty database. -/
def runOps (ops : List Op) : DB := ops.foldl runOp emptyDB

/-- Total quantity of all sales referencing inventory row `i`. -/
def salesFor (s : DB) (i : Nat) : Int :=
  ((s.sales.filter (fun sl => sl.inventory_id == i)).map (·.quantity)).sum

theorem perm_insertSorted (le : α → α → Bool) (a : α) (l : List α) :
    (insertSorted le a l).Perm (a :: l) := by
  induction l with
  | nil => simp [insertSorted]
  | cons b l ih =>
    by_cases h : le a b
    · simp [insertSorted, h]
    · simp only [insertSorted, h, Bool.false_eq_true, if_false]
      exact (ih.cons b).trans (List.Perm.swap a b l)

theorem perm_sortByLe (le : α → α → Bool) (l : List α) :
    (sortByLe le l).Perm l := by
  induction l with
  | nil => simp [sortByLe]
  | cons a l ih =>
    exact (perm_insertSorted le a (sortByLe le l)).trans (ih.cons a)

theorem mem_sortByLe (le : α → α → Bool) (l : List α) (x : α) :
    x ∈ sortByLe le l ↔ x ∈ l :=
  (perm_sortByLe le l).mem_iff

theorem pairwise_insertSorted (le : α → α → Bool)
    (htot : ∀ a b, le a b = true ∨ le b a = true)
    (htr : ∀ a b c, le a b = true → le b c = true → le a c = true)
    (a : α) (l : List α) (hl : l.Pairwise (fun x y => le x y = true)) :
    (insertSorted le a l).Pairwise (fun x y => le x y = true) := by
  induction l with
  | nil => simp [insertSorted]
  | cons b l ih =>
    rcases List.pairwise_cons.mp hl with ⟨hb, hl'⟩
    by_cases h : le a b
    · simp only [insertSorted, h, if_true]
      refine List.pairwise_cons.mpr ⟨?_, hl⟩
      intro x hx
      rcases List.mem_cons.mp hx with rfl | hx
      · exact h
      · exact htr a b x h (hb x hx)
    · simp only [insertSorted, h, Bool.false_eq_true, if_false]
      refine List.pairwise_cons.mpr ⟨?_, ih hl'⟩
      intro x hx
      rcases List.mem_cons.mp ((perm_insertSorted le a l).mem_iff.mp hx) with hxa | hx
      · rw [hxa]
        rcases htot a b with hab | hba
        · exact absurd hab h
        · exact hba
      · exact hb x hx

theorem pairwise_sortByLe (le : α → α → Bool)
    (htot : ∀ a b, le a b = true ∨ le b a = true)
    (htr : ∀ a b c, le a b = true → le b c = true → le a c = true)
    (l : List α) :
    (sortByLe le l).Pairwise (fun x y => le x y = true) := by
  induction l with
  | nil => simp [sortByLe]
  | cons a l ih => exact pairwise_insertSorted le htot htr a (sortByLe le l) ih

/-- The sale row inserted by a successful `sell_medicine` call. -/
def mkSale (s : DB) (inventory_id : Nat) (quantity : Int)
    (customer_name : String) (sale_date sale_time : Int) (lot : Lot) : Sale :=
  { id := freshSaleId s, inventory_id := inventory_id, quantity := quantity,
    sale_price := lot.selling_price, customer_name := customer_name,
    sale_date := sale_date, sale_time := sale_time,
    total_amount := (quantity : ℚ) * lot.selling_price }

/-- Full characterization of a `sell_medicine` call that passes the stock
check (the only check besides existence). -/
theorem sell_medicine_of_le (s : DB) (lotId : Nat) (lot : Lot) (q : Int)
    (cn : String) (d t : Int)
    (hfind : s.lots.find? (fun l => l.id == lotId) = some lot)
    (hle : q ≤ lot.quantity) :
    sell_medicine s lotId q cn d t =
      ({ medicines := s.medicines,
         lots := s.lots.map (fun l =>
           if l.id == lotId then { l with quantity := l.quantity - q } else l),
         sales := s.sales ++ [mkSale s lotId q cn d t lot] },
       .ok ((q : ℚ) * lot.selling_price)) := by
  unfold sell_medicine
  rw [hfind]
  simp only [not_lt.mpr hle, if_neg, mkSale]
  rfl

theorem find?_update_quantity (i : Nat) (q : Int) (lots : List Lot) :
    ∀ lot : Lot, lots.find? (fun l => l.id == i) = some lot →
      (lots.map (fun l =>
        if l.id == i then { l with quantity := l.quantity - q } else l)).find?
          (fun l => l.id == i) =
        some { lot with quantity := lot.quantity - q } := by
  induction lots with
  | nil => intro lot h; simp at h
  | cons a lots ih =>
    intro lot h
    by_cases ha : (a.id == i) = true
    · simp only [List.find?_cons, ha] at h
      injection h with h; subst h
      have ha' : a.id = i := by simpa using ha
      simp [List.find?_cons, ha', ha]
    · rw [Bool.not_eq_true] at ha
      simp only [List.find?_cons, ha] at h
      simp only [List.map_cons, ha, Bool.false_eq_true, if_false,
        List.find?_cons]
      exact ih lot h

/-- Concrete catalog row used by the witnesses below. -/
def med1 : Medicine := ⟨1, "Paracetamol", none, none, none, none, none⟩

/-- Concrete inventory row: lot 1 of medicine 1, quantity 10, expiry day
20000, cost 2, price 5, purchased on day 19000. -/
def lot1 : Lot := ⟨1, 1, 10, 20000, 2, 5, 19000, 10⟩

/-- Concrete state with one medicine and one lot. -/
def db1 : DB := ⟨[med1], [lot1], []⟩

/-- C1: selling `0 < q ≤ Q` from a lot with quantity `Q` succeeds, leaves
the lot's quantity at `Q - q` (in particular `q = Q` leaves 0), and appends
exactly one sale whose `sale_price` is the lot's `selling_price` and whose
`total_amount` is `q * selling_price`. -/
theorem sell_in_stock_succeeds (s : DB) (lotId : Nat) (lot : Lot) (q : Int)
    (cn : String) (d t : Int)
    (hfind : s.lots.find? (fun l => l.id == lotId) = some lot)
    (hpos : 0 < q) (hle : q ≤ lot.quantity) :
    (sell_medicine s lotId q cn d t).2 = .ok ((q : ℚ) * lot.selling_price) ∧
    (sell_medicine s lotId q cn d t).1.lots.find? (fun l => l.id == lotId) =
      some { lot with quantity := lot.quantity - q } ∧
    ∃ sale : Sale,
      (sell_medicine s lotId q cn d t).1.sales = s.sales ++ [sale] ∧
      sale.inventory_id = lotId ∧ sale.quantity = q ∧
      sale.sale_price = lot.selling_price ∧
      sale.total_amount = (q : ℚ) * lot.selling_price := by
  have h := sell_medicine_of_le s lotId lot q cn d t hfind hle
  rw [h]
  exact ⟨rfl, find?_update_quantity lotId q s.lots lot hfind,
    ⟨mkSale s lotId q cn d t lot, rfl, rfl, rfl, rfl, rfl⟩⟩

/-- Witness for C1: selling exactly the remaining 10 units of `lot1`
succeeds with total `10 * 5`. -/
theorem sell_in_stock_succeeds_w :
    db1.lots.find? (fun l => l.id == 1) = some lot1 ∧ (0 : Int) < 10 ∧
    (10 : Int) ≤ lot1.quantity ∧
    (sell_medicine db1 1 10 "" 19900 0).2 = .ok ((10 : ℚ) * lot1.selling_price) :=
  ⟨by decide, by decide, by decide,
    (sell_in_stock_succeeds db1 1 lot1 10 "" 19900 0 (by decide) (by decide)
      (by decide)).1⟩

/-- C2: a sale of `q > Q` returns the insufficient-stock failure with the
state exactly as before, and a sale against an unknown lot id returns the
not-found failure with the state exactly as before. -/
theorem sell_failure_no_effect (s : DB) (lotId : Nat) (q : Int) (cn : String)
    (d t : Int) :
    (s.lots.find? (fun l => l.id == lotId) = none →
      sell_medicine s lotId q cn d t = (s, .notFound)) ∧
    (∀ lot : Lot, s.lots.find? (fun l => l.id == lotId) = some lot →
      lot.quantity < q →
      sell_medicine s lotId q cn d t = (s, .insufficientStock)) := by
  constructor
  · intro h
    unfold sell_medicine
    rw [h]
  · intro lot h hlt
    unfold sell_medicine
    rw [h]
    simp [hlt]

/-- Witness for C2: lot id 2 is absent from `db1`, and selling 11 from
lot 1 (quantity 10) fails, both leaving the state untouched. -/
theorem sell_failure_no_effect_w :
    (db1.lots.find? (fun l => l.id == 2) = none ∧
      sell_medicine db1 2 5 "" 19900 0 = (db1, .notFound)) ∧
    (db1.lots.find? (fun l => l.id == 1) = some lot1 ∧ lot1.quantity < 11 ∧
      sell_medicine db1 1 11 "" 19900 0 = (db1, .insufficientStock)) :=
  ⟨⟨by decide, (sell_failure_no_effect db1 2 5 "" 19900 0).1 (by decide)⟩,
   ⟨by decide, by decide,
    (sell_failure_no_effect db1 1 11 "" 19900 0).2 lot1 (by decide) (by decide)⟩⟩

/-- C4 counterexample: `sell_medicine` has no positivity check on the sale
quantity.  On `db1` (lot 1 has quantity 10) a sale of 0 succeeds with total
0, and a sale of -5 succeeds with total -25 and *increases* the lot's
quantity to 15 — no `InvalidInput` failure occurs. -/
theorem sell_nonpositive_not_rejected :
    (sell_medicine db1 1 0 "" 19900 0).2 = .ok 0 ∧
    (sell_medicine db1 1 (-5) "" 19900 0).2 = .ok (-25) ∧
    (sell_medicine db1 1 (-5) "" 19900 0).1.lots.find? (fun l => l.id == 1) =
      some { lot1 with quantity := 15 } := by
  have h0 := sell_medicine_of_le db1 1 lot1 0 "" 19900 0 (by decide) (by decide)
  have h5 := sell_medicine_of_le db1 1 lot1 (-5) "" 19900 0 (by decide) (by decide)
  refine ⟨?_, ?_, ?_⟩
  · rw [h0]
    norm_num [lot1]
  · rw [h5]
    norm_num [lot1]
  · rw [h5]
    decide

/-- C4 amended: the code performs no `quantity ≤ 0` validation. For every
existing lot with nonnegative quantity and every `q ≤ 0`, the stock check
`available < quantity` passes, so the sale succeeds: one sale row with
quantity `q` is appended and the lot's quantity becomes `Q - q` (an
increase when `q < 0`). -/
theorem sell_nonpositive_succeeds (s : DB) (lotId : Nat) (lot : Lot) (q : Int)
    (cn : String) (d t : Int)
    (hfind : s.lots.find? (fun l => l.id == lotId) = some lot)
    (hq : q ≤ 0) (h0 : 0 ≤ lot.quantity) :
    (sell_medicine s lotId q cn d t).2 = .ok ((q : ℚ) * lot.selling_price) ∧
    (sell_medicine s lotId q cn d t).1.lots.find? (fun l => l.id == lotId) =
      some { lot with quantity := lot.quantity - q } ∧
    ∃ sale : Sale,
      (sell_medicine s lotId q cn d t).1.sales = s.sales ++ [sale] ∧
      sale.quantity = q := by
  have h := sell_medicine_of_le s lotId lot q cn d t hfind (le_trans hq h0)
  rw [h]
  exact ⟨rfl, find?_update_quantity lotId q s.lots lot hfind,
    ⟨mkSale s lotId q cn d t lot, rfl, rfl⟩⟩

/-- Witness for the amended C4 at `q = -5` on `db1`. -/
theorem sell_nonpositive_succeeds_w :
    db1.lots.find? (fun l => l.id == 1) = some lot1 ∧ (-5 : Int) ≤ 0 ∧
    (0 : Int) ≤ lot1.quantity ∧
    (sell_medicine db1 1 (-5) "" 19900 0).2 = .ok (((-5 : Int) : ℚ) * lot1.selling_price) :=
  ⟨by decide, by decide, by decide,
    (sell_nonpositive_succeeds db1 1 lot1 (-5) "" 19900 0 (by decide)
      (by decide) (by decide)).1⟩

/-- C5 counterexample: `add_to_inventory` performs none of the claimed
checks.  On the empty database (so medicine id 1 does not exist in the
catalog), with quantity -5 and both prices negative but a well-formed
expiry date, the call succeeds instead of failing with `InvalidReference`
or `InvalidInput`. -/
theorem add_unvalidated_cex :
    (add_to_inventory emptyDB 1 (-5) 2050 1 1 (-2) (-3) 19000).isOk = true ∧
    (1 : Nat) ∉ emptyDB.medicines.map (·.id) ∧
    (-5 : Int) < 0 ∧ (-2 : ℚ) < 0 ∧ (-3 : ℚ) < 0 :=
  ⟨by decide, by decide, by decide, by norm_num, by norm_num⟩

/-- C5 amended: the only failure of `add_to_inventory` is the `ValueError`
raised by `strptime` on a malformed expiry date.  For a well-formed date the
call always succeeds — for any `medicine_id` (present in the catalog or
not) and any quantity and prices (negative or not) — appending exactly one
new lot (never merging with an existing one) and returning its id. -/
theorem add_to_inventory_spec (s : DB) (mid : Nat) (q : Int) (ey em ed : Int)
    (pp sp : ℚ) (today : Int) :
    (isValidDate ey em ed = true →
      add_to_inventory s mid q ey em ed pp sp today =
        .ok (freshLotId s,
          { s with lots := s.lots ++
              [{ id := freshLotId s, medicine_id := mid, quantity := q,
                 expiry_date := daysFromCivil ey em ed, purchase_price := pp,
                 selling_price := sp, purchase_date := today,
                 initial_quantity := q }] })) ∧
    (isValidDate ey em ed = false →
      add_to_inventory s mid q ey em ed pp sp today = .error ()) := by
  constructor
  · intro h
    simp [add_to_inventory, h]
  · intro h
    simp [add_to_inventory, h]

/-- Witness for the amended C5: 2050-02-29 is malformed (2050 is not a leap
year) and raises; 2050-01-31 is well-formed and inserts one lot. -/
theorem add_to_inventory_spec_w :
    (isValidDate 2050 2 29 = false ∧
      add_to_inventory emptyDB 1 7 2050 2 29 2 5 19000 = .error ()) ∧
    (isValidDate 2050 1 31 = true ∧
      add_to_inventory emptyDB 1 7 2050 1 31 2 5 19000 =
        .ok (freshLotId emptyDB,
          { emptyDB with lots := emptyDB.lots ++
              [{ id := freshLotId emptyDB, medicine_id := 1, quantity := 7,
                 expiry_date := daysFromCivil 2050 1 31, purchase_price := 2,
                 selling_price := 5, purchase_date := 19000,
                 initial_quantity := 7 }] })) :=
  ⟨⟨by decide, (add_to_inventory_spec emptyDB 1 7 2050 2 29 2 5 19000).2 (by decide)⟩,
   ⟨by decide, (add_to_inventory_spec emptyDB 1 7 2050 1 31 2 5 19000).1 (by decide)⟩⟩

theorem load_names_aux (recs : List MedRecord) :
    ∀ s : DB, (recs.foldl insertMedicine s).medicines.map (·.name) =
      s.medicines.map (·.name) ++ recs.map (·.name) := by
  induction recs with
  | nil => intro s; simp
  | cons r recs ih =>
    intro s
    rw [List.foldl_cons, ih]
    simp [insertMedicine]

/-- Concrete catalog candidate record for the C9 counterexample. -/
def recA : MedRecord := ⟨"Amoxicillin", none, none, none, none, none⟩

/-- C9 counterexample: the `medicines` table has no uniqueness constraint on
`name`, so `INSERT OR IGNORE` never skips a duplicate name.  Loading the
sequence `[recA, recA]` into an empty catalog inserts the name twice. -/
theorem load_duplicate_names_cex :
    ((load_medicine_data emptyDB [recA, recA]).medicines.map (·.name)) =
      ["Amoxicillin", "Amoxicillin"] ∧
    ¬ ((load_medicine_data emptyDB [recA, recA]).medicines.map (·.name)).Nodup := by
  constructor
  · decide
  · decide

/-- C9 amended: when the catalog is empty the load inserts *every* candidate
record unconditionally, in order (the name-based dedup claimed by the spec
does not happen, since no uniqueness constraint exists on `name`); when the
catalog is nonempty the load inserts nothing, so a restart with existing
data is a no-op. -/
theorem load_medicine_data_spec (s : DB) (recs : List MedRecord) :
    (s.medicines = [] →
      (load_medicine_data s recs).medicines.map (·.name) = recs.map (·.name)) ∧
    (s.medicines ≠ [] → load_medicine_data s recs = s) := by
  constructor
  · intro h
    unfold load_medicine_data
    rw [if_pos (by rw [h]; rfl)]
    rw [load_names_aux recs s, h]
    simp
  · intro h
    unfold load_medicine_data
    rw [if_neg]
    simp only [List.isEmpty_iff]
    exact h

/-- Witness for the amended C9: loading one record into the empty catalog
inserts it; loading into `db1` (nonempty catalog) changes nothing. -/
theorem load_medicine_data_spec_w :
    (emptyDB.medicines = [] ∧
      (load_medicine_data emptyDB [recA]).medicines.map (·.name) =
        [recA].map (·.name)) ∧
    (db1.medicines ≠ [] ∧ load_medicine_data db1 [recA] = db1) :=
  ⟨⟨rfl, (load_medicine_data_spec emptyDB [recA]).1 rfl⟩,
   ⟨by decide, (load_medicine_data_spec db1 [recA]).2 (by decide)⟩⟩

theorem invRowLe_total (a b : InvRow) :
    invRowLe a b = true ∨ invRowLe b a = true := by
  rcases le_total a.expiry_date b.expiry_date with h | h
  · left; simpa [invRowLe] using h
  · right; simpa [invRowLe] using h

theorem invRowLe_trans (a b c : InvRow) :
    invRowLe a b = true → invRowLe b c = true → invRowLe a c = true := by
  simp only [invRowLe, decide_eq_true_eq]
  exact le_trans

/-- C6: `get_inventory` returns only rows with positive quantity; each row's
status is LOW when quantity is at or below the threshold (taking precedence
over expiry), else NEAR_EXPIRY exactly when the expiry date is within 30
days of today, else OK; the rows are ordered by expiry date ascending; and
the caller-facing default threshold is 10. -/
theorem get_inventory_spec (s : DB) (today thr : Int) :
    (∀ r ∈ get_inventory s today thr,
      0 < r.quantity ∧
      r.status = (if r.quantity ≤ thr then "LOW"
        else if r.expiry_date < today + 30 then "NEAR_EXPIRY" else "OK")) ∧
    (get_inventory s today thr).Pairwise
      (fun a b => a.expiry_date ≤ b.expiry_date) ∧
    get_inventory_default s today = get_inventory s today 10 := by
  refine ⟨?_, ?_, rfl⟩
  · intro r hr
    simp only [get_inventory] at hr
    rcases List.mem_filter.mp ((mem_sortByLe _ _ r).mp hr) with ⟨hj, hq⟩
    refine ⟨by simpa using hq, ?_⟩
    rcases List.mem_flatMap.mp hj with ⟨l, _, hrm⟩
    rcases List.mem_map.mp hrm with ⟨m, _, rfl⟩
    simp [invStatus]
  · simp only [get_inventory]
    exact (pairwise_sortByLe invRowLe invRowLe_total invRowLe_trans _).imp
      (fun h => by simpa [invRowLe] using h)

/-- Row that `get_inventory db1 19000 10` returns for `lot1`. -/
def row1 : InvRow := ⟨1, "Paracetamol", 10, 20000, 2, 5, "LOW"⟩

/-- Witness for C6: on `db1` the lot (quantity 10, threshold 10) comes back
with positive quantity and status LOW. -/
theorem get_inventory_spec_w :
    row1 ∈ get_inventory db1 19000 10 ∧
    (0 < row1.quantity ∧
      row1.status = (if row1.quantity ≤ 10 then "LOW"
        else if row1.expiry_date < 19000 + 30 then "NEAR_EXPIRY" else "OK")) :=
  ⟨by decide, (get_inventory_spec db1 19000 10).1 row1 (by decide)⟩

theorem maxId_ge {is : List Nat} {i : Nat} (h : i ∈ is) : i ≤ maxId is := by
  induction is with
  | nil => cases h
  | cons a is ih =>
    rcases List.mem_cons.mp h with rfl | h
    · simp [maxId]
    · simp only [maxId]
      exact le_trans (ih h) (le_max_right _ _)

theorem freshLotId_gt (s : DB) : ∀ l ∈ s.lots, l.id < freshLotId s :=
  fun l hl =>
    Nat.lt_succ_of_le (maxId_ge (List.mem_map_of_mem (·.id) hl))

/-- Every sale references a lot that exists in the ledger (true in every
reachable state, since `sell_medicine` checks existence and lots are never
deleted). -/
def refsOK (s : DB) : Prop :=
  ∀ sl ∈ s.sales, ∃ l ∈ s.lots, l.id = sl.inventory_id

/-- Stock conservation: sold quantities plus remaining quantity equal the
quantity the lot was created with. -/
def conserved (s : DB) : Prop :=
  ∀ l ∈ s.lots, salesFor s l.id + l.quantity = l.initial_quantity

theorem upd_id (i : Nat) (q : Int) (l : Lot) :
    (if l.id == i then { l with quantity := l.quantity - q } else l).id = l.id := by
  split <;> rfl

theorem runOp_preserves (s : DB) (op : Op)
    (h : refsOK s ∧ conserved s) :
    refsOK (runOp s op) ∧ conserved (runOp s op) := by
  obtain ⟨href, hcon⟩ := h
  cases op with
  | addLot mid q ey em ed pp sp today =>
    simp only [runOp]
    by_cases hv : isValidDate ey em ed = true
    · simp only [add_to_inventory, hv, if_true]
      have hfil : s.sales.filter
          (fun sl => sl.inventory_id == freshLotId s) = [] := by
        rw [List.filter_eq_nil_iff]
        intro sl hsl
        obtain ⟨l, hl, hid⟩ := href sl hsl
        have hlt := freshLotId_gt s l hl
        simp only [beq_iff_eq]
        omega
      constructor
      · intro sl hsl
        obtain ⟨l, hl, hid⟩ := href sl hsl
        exact ⟨l, List.mem_append_left _ hl, hid⟩
      · intro l hl
        rcases List.mem_append.mp hl with hl | hl
        · exact hcon l hl
        · simp only [List.mem_singleton] at hl
          subst hl
          simp [salesFor, hfil]
    · simp only [add_to_inventory, hv]
      simpa using ⟨href, hcon⟩
  | sell i q cn d t =>
    simp only [runOp]
    cases hfind : s.lots.find? (fun l => l.id == i) with
    | none =>
      simp only [sell_medicine, hfind]
      exact ⟨href, hcon⟩
    | some lot =>
      by_cases hlt : lot.quantity < q
      · simp only [sell_medicine, hfind, hlt, if_pos]
        exact ⟨href, hcon⟩
      · rw [sell_medicine_of_le s i lot q cn d t hfind (not_lt.mp hlt)]
        have hlotmem := List.mem_of_find?_eq_some hfind
        have hlotid : lot.id = i := by simpa using List.find?_some hfind
        constructor
        · intro sl hsl
          rcases List.mem_append.mp hsl with hsl | hsl
          · obtain ⟨l, hl, hid⟩ := href sl hsl
            refine ⟨_, List.mem_map_of_mem _ hl, ?_⟩
            rw [upd_id]
            exact hid
          · simp only [List.mem_singleton] at hsl
            subst hsl
            refine ⟨_, List.mem_map_of_mem _ hlotmem, ?_⟩
            rw [upd_id, hlotid]
            rfl
        · intro l' hl'
          rcases List.mem_map.mp hl' with ⟨l, hl, rfl⟩
          have hstep := hcon l hl
          simp only [salesFor] at hstep
          by_cases hc : (l.id == i) = true
          · have hceq : l.id = i := by simpa using hc
            rw [hceq] at hstep
            simp only [upd_id, hc, if_true, hceq, salesFor,
              List.filter_append, List.map_append, List.sum_append,
              List.filter_cons, List.filter_nil, mkSale]
            simp only [beq_self_eq_true, if_true, List.map_cons,
              List.map_nil, List.sum_cons, List.sum_nil]
            linarith
          · have hcne : l.id ≠ i := by simpa using hc
            simp only [upd_id, hc, Bool.false_eq_true, if_false, salesFor,
              List.filter_append, List.map_append, List.sum_append,
              List.filter_cons, List.filter_nil, mkSale]
            have hfalse : (i == l.id) = false := by
              simp only [beq_eq_false_iff_ne]
              exact fun hh => hcne hh.symm
            simp only [hfalse, Bool.false_eq_true, if_false, List.map_nil,
              List.sum_nil, add_zero]
            exact hstep

theorem runOps_invariant (ops : List Op) :
    refsOK (runOps ops) ∧ conserved (runOps ops) := by
  suffices h : ∀ s : DB, refsOK s ∧ conserved s →
      refsOK (ops.foldl runOp s) ∧ conserved (ops.foldl runOp s) by
    refine h emptyDB ⟨?_, ?_⟩
    · intro sl hsl
      simp [emptyDB] at hsl
    · intro l hl
      simp [emptyDB] at hl
  induction ops with
  | nil => intro s h; exact h
  | cons op ops ih =>
    intro s h
    exact ih _ (runOp_preserves s op h)

/-- C3: after any sequence of `add_to_inventory` and `sell_medicine` calls
starting from the empty database, every lot satisfies: total quantity of
the sales referencing it plus its current quantity equals the quantity it
was created with. -/
theorem lot_stock_conservation (ops : List Op) (lot : Lot)
    (hmem : lot ∈ (runOps ops).lots) :
    salesFor (runOps ops) lot.id + lot.quantity = lot.initial_quantity :=
  (runOps_invariant ops).2 lot hmem

/-- Concrete run for the C3 witness: create a lot of 10, sell 3. -/
def ops1 : List Op :=
  [.addLot 1 10 2050 1 1 2 5 19000, .sell 1 3 "" 19000 100]

/-- The lot as it stands after `ops1`: 7 remaining of the original 10. -/
def lotW : Lot := ⟨1, 1, 7, daysFromCivil 2050 1 1, 2, 5, 19000, 10⟩

/-- Witness for C3: after `ops1`, sold 3 plus remaining 7 equals the
original 10. -/
theorem lot_stock_conservation_w :
    lotW ∈ (runOps ops1).lots ∧
    salesFor (runOps ops1) lotW.id + lotW.quantity = lotW.initial_quantity :=
  ⟨by decide, lot_stock_conservation ops1 lotW (by decide)⟩

/-- C10: a successful sale only decrements the sold lot's quantity and
appends one sale row — the medicines table, all pre-existing sales, all
other lots, and every non-quantity field of the sold lot are unchanged;
a successful `add_to_inventory` only appends one lot row. -/
theorem frame_effects (s : DB) :
    (∀ (lotId : Nat) (lot : Lot) (q : Int) (cn : String) (d t : Int),
      s.lots.find? (fun l => l.id == lotId) = some lot → q ≤ lot.quantity →
      (sell_medicine s lotId q cn d t).1.medicines = s.medicines ∧
      (∃ sale : Sale,
        (sell_medicine s lotId q cn d t).1.sales = s.sales ++ [sale]) ∧
      (sell_medicine s lotId q cn d t).1.lots.length = s.lots.length ∧
      (∀ l ∈ s.lots, l.id ≠ lotId →
        l ∈ (sell_medicine s lotId q cn d t).1.lots) ∧
      (∀ l ∈ s.lots, l.id = lotId →
        { l with quantity := l.quantity - q } ∈
          (sell_medicine s lotId q cn d t).1.lots)) ∧
    (∀ (mid : Nat) (q2 ey em ed : Int) (pp sp : ℚ) (today : Int)
        (i : Nat) (s2 : DB),
      add_to_inventory s mid q2 ey em ed pp sp today = .ok (i, s2) →
      s2.medicines = s.medicines ∧ s2.sales = s.sales ∧
      ∃ newlot : Lot, s2.lots = s.lots ++ [newlot]) := by
  constructor
  · intro lotId lot q cn d t hfind hle
    rw [sell_medicine_of_le s lotId lot q cn d t hfind hle]
    refine ⟨rfl, ⟨_, rfl⟩, by simp, ?_, ?_⟩
    · intro l hl hne
      exact List.mem_map.mpr ⟨l, hl, by simp [hne]⟩
    · intro l hl heq
      exact List.mem_map.mpr ⟨l, hl, by simp [heq]⟩
  · intro mid q2 ey em ed pp sp today i s2 hok
    by_cases hv : isValidDate ey em ed = true
    · simp only [add_to_inventory, hv, if_true, Except.ok.injEq,
        Prod.mk.injEq] at hok
      rw [← hok.2]
      exact ⟨rfl, rfl, _, rfl⟩
    · simp [add_to_inventory, hv] at hok

/-- Witness for C10: selling 3 from `lot1` in `db1` leaves the medicines
table unchanged. -/
theorem frame_effects_w :
    db1.lots.find? (fun l => l.id == 1) = some lot1 ∧
    (3 : Int) ≤ lot1.quantity ∧
    (sell_medicine db1 1 3 "" 19900 0).1.medicines = db1.medicines :=
  ⟨by decide, by decide,
    ((frame_effects db1).1 1 lot1 3 "" 19900 0 (by decide) (by decide)).1⟩

theorem reportRowLe_total (a b : ReportRow) :
    reportRowLe a b = true ∨ reportRowLe b a = true := by
  simp only [reportRowLe, Bool.or_eq_true, Bool.and_eq_true,
    decide_eq_true_eq, beq_iff_eq]
  rcases lt_trichotomy a.sale_date b.sale_date with h | h | h
  · right; left; exact h
  · rcases le_total a.sale_time b.sale_time with ht | ht
    · right; right; exact ⟨h, ht⟩
    · left; right; exact ⟨h.symm, ht⟩
  · left; left; exact h

theorem reportRowLe_trans (a b c : ReportRow) :
    reportRowLe a b = true → reportRowLe b c = true →
    reportRowLe a c = true := by
  simp only [reportRowLe, Bool.or_eq_true, Bool.and_eq_true,
    decide_eq_true_eq, beq_iff_eq]
  rintro (hab | ⟨hab, tab⟩) (hbc | ⟨hbc, tbc⟩)
  · left; omega
  · left; omega
  · left; omega
  · right; exact ⟨by omega, le_trans tbc tab⟩

/-- A sale whose inner joins against `inventory` and `medicines` resolve
(the foreign keys are not enforced by the schema, so this can fail only for
a lot inserted with a dangling `medicine_id`). -/
def resolvedSale (s : DB) (sl : Sale) : Prop :=
  ∃ l ∈ s.lots, l.id = sl.inventory_id ∧
    ∃ m2 ∈ s.medicines, m2.id = l.medicine_id

instance (s : DB) (sl : Sale) : Decidable (resolvedSale s sl) := by
  unfold resolvedSale
  infer_instance

/-- The report rows are exactly the sales at or after the cutoff date:
every row is at or after the cutoff, and every resolvable sale at or after
the cutoff produces a row carrying its date, time, customer, quantity and
total. -/
def reportExact (s : DB) (rows : List ReportRow) (c : Int) : Prop :=
  (∀ r ∈ rows, c ≤ r.sale_date) ∧
  ∀ sl ∈ s.sales, resolvedSale s sl → c ≤ sl.sale_date →
    ∃ r ∈ rows, r.sale_date = sl.sale_date ∧ r.sale_time = sl.sale_time ∧
      r.customer_name = sl.customer_name ∧ r.quantity = sl.quantity ∧
      r.total_amount = sl.total_amount

theorem reportExact_pipeline (s : DB) (c : Int) :
    reportExact s
      (sortByLe reportRowLe
        ((reportJoin s).filter (fun r => c ≤ r.sale_date))) c := by
  constructor
  · intro r hr
    have h := List.mem_filter.mp ((mem_sortByLe _ _ r).mp hr)
    simpa using h.2
  · intro sl hsl hres hc
    obtain ⟨l, hl, hlid, m2, hm2, hmid⟩ := hres
    refine ⟨⟨sl.sale_date, sl.sale_time, m2.name, sl.customer_name,
      sl.quantity, sl.total_amount,
      (sl.quantity : ℚ) * (sl.sale_price - l.purchase_price)⟩,
      ?_, rfl, rfl, rfl, rfl, rfl⟩
    rw [mem_sortByLe, List.mem_filter]
    constructor
    · apply List.mem_flatMap.mpr
      refine ⟨sl, hsl, ?_⟩
      apply List.mem_flatMap.mpr
      refine ⟨l, List.mem_filter.mpr ⟨hl, by simp [hlid]⟩, ?_⟩
      apply List.mem_map.mpr
      exact ⟨m2, List.mem_filter.mpr ⟨hm2, by simp [hmid]⟩, rfl⟩
    · simpa using hc

/-- C7: the sales report filters by `sale_date >= cutoff` with cutoff today
for `daily`, today minus 7 days for `weekly`, and the first day of the
current month for `monthly` (a sale dated before the 1st is excluded); any
other period string yields the empty list rather than an error; and every
report is ordered by sale date descending, then sale time descending. -/
theorem get_sales_report_spec (s : DB) (y m d : Int) :
    reportExact s (get_sales_report s y m d "daily") (daysFromCivil y m d) ∧
    reportExact s (get_sales_report s y m d "weekly")
      (daysFromCivil y m d - 7) ∧
    reportExact s (get_sales_report s y m d "monthly")
      (daysFromCivil y m 1) ∧
    (∀ p : String, p ≠ "daily" → p ≠ "weekly" → p ≠ "monthly" →
      get_sales_report s y m d p = []) ∧
    (∀ p : String, (get_sales_report s y m d p).Pairwise
      (fun a b => b.sale_date < a.sale_date ∨
        (b.sale_date = a.sale_date ∧ b.sale_time ≤ a.sale_time))) := by
  refine ⟨?_, ?_, ?_, ?_, ?_⟩
  · exact reportExact_pipeline s (daysFromCivil y m d)
  · exact reportExact_pipeline s (daysFromCivil y m d - 7)
  · exact reportExact_pipeline s (daysFromCivil y m 1)
  · intro p h1 h2 h3
    have hcut : periodCutoff y m d p = none := by
      simp [periodCutoff, h1, h2, h3]
    simp [get_sales_report, hcut]
  · intro p
    simp only [get_sales_report]
    cases hcut : periodCutoff y m d p with
    | none => simp
    | some c =>
      exact (pairwise_sortByLe reportRowLe reportRowLe_total
        reportRowLe_trans _).imp
        (fun h => by
          simpa [reportRowLe, Bool.or_eq_true, Bool.and_eq_true,
            decide_eq_true_eq, beq_iff_eq] using h)

/-- Concrete sale for the C7 witness: 3 units from lot 1 on 2024-05-15 at
10:00:00, customer Alice, total 15. -/
def saleW : Sale := ⟨1, 1, 3, 5, "Alice", daysFromCivil 2024 5 15, 36000, 15⟩

/-- Concrete state with one resolved sale. -/
def db2 : DB := ⟨[med1], [lot1], [saleW]⟩

/-- Witness for C7: the monthly report on 2024-05-15 contains the sale of
2024-05-15, which is on or after 2024-05-01. -/
theorem get_sales_report_spec_w :
    saleW ∈ db2.sales ∧ resolvedSale db2 saleW ∧
    daysFromCivil 2024 5 1 ≤ saleW.sale_date ∧
    ∃ r ∈ get_sales_report db2 2024 5 15 "monthly",
      r.sale_date = saleW.sale_date ∧ r.sale_time = saleW.sale_time ∧
      r.customer_name = saleW.customer_name ∧ r.quantity = saleW.quantity ∧
      r.total_amount = saleW.total_amount :=
  ⟨by decide, by decide, by decide,
    ((get_sales_report_spec db2 2024 5 15).2.2.1).2 saleW (by decide)
      (by decide) (by decide)⟩

theorem expRowLe_total (a b : ExpRow) :
    expRowLe a b = true ∨ expRowLe b a = true := by
  rcases le_total a.expiry_date b.expiry_date with h | h
  · left; simpa [expRowLe] using h
  · right; simpa [expRowLe] using h

theorem expRowLe_trans (a b c : ExpRow) :
    expRowLe a b = true → expRowLe b c = true → expRowLe a c = true := by
  simp only [expRowLe, decide_eq_true_eq]
  exact le_trans

/-- Exact value of the truncated julian-day difference for an expiry at or
after today: it equals `expiry - today` only when the query runs exactly at
midnight; during the rest of the day it is one less (clamped at 0 on the
expiry day itself, since SQLite's CAST truncates toward zero). -/
theorem daysRemaining_eq (e today sec : Int) (hs0 : 0 ≤ sec)
    (hs : sec < 86400) (h : today ≤ e) :
    daysRemaining e today sec =
      (if sec = 0 then e - today
       else if e = today then 0 else e - today - 1) := by
  unfold daysRemaining truncDiv86400
  split_ifs <;> omega

/-- Concrete lot for the C8 counterexample: quantity 0, expiring on day 10. -/
def lotE : Lot := ⟨1, 1, 0, 10, 2, 5, 0, 0⟩

/-- Concrete state for the C8 counterexample. -/
def db3 : DB := ⟨[med1], [lotE], []⟩

/-- C8 counterexample: querying at noon (43200 seconds after midnight) on
day 0 for lots expiring within 30 days, the lot expiring on day 10 comes
back with `days_remaining = 9`, not `expiry_date - today = 10`: the code
truncates `julianday(expiry) - julianday('now')`, and `julianday('now')`
includes the time of day.  (The row also shows that a quantity-0 lot is not
filtered out.) -/
theorem expiring_days_remaining_cex :
    (get_expiring_medicines db3 0 43200 30).map
      (fun r => (r.quantity, r.expiry_date, r.days_remaining)) =
      [(0, 10, 9)] ∧ (10 : Int) - 0 ≠ 9 := by
  constructor
  · decide
  · decide

/-- C8 amended: `get_expiring_medicines(d)` returns exactly the joined lots
whose expiry date lies in the inclusive window `[today, today + d]` (with
no quantity filter, so quantity-0 lots are included), ordered by expiry
date ascending; each row is annotated with the truncation of
`julianday(expiry) - julianday('now')`, which equals `expiry - today` only
when the query runs exactly at midnight and is `expiry - today - 1`
otherwise (0 on the expiry day itself). -/
theorem get_expiring_medicines_spec (s : DB) (today sec : Int) (days : Nat)
    (hs0 : 0 ≤ sec) (hs : sec < 86400) :
    (∀ r ∈ get_expiring_medicines s today sec days,
      (today ≤ r.expiry_date ∧ r.expiry_date ≤ today + (days : Int)) ∧
      r.days_remaining =
        (if sec = 0 then r.expiry_date - today
         else if r.expiry_date = today then 0
         else r.expiry_date - today - 1)) ∧
    (∀ l ∈ s.lots, today ≤ l.expiry_date →
      l.expiry_date ≤ today + (days : Int) →
      (∃ m2 ∈ s.medicines, m2.id = l.medicine_id) →
      ∃ r ∈ get_expiring_medicines s today sec days,
        r.quantity = l.quantity ∧ r.expiry_date = l.expiry_date ∧
        r.days_remaining = daysRemaining l.expiry_date today sec) ∧
    (get_expiring_medicines s today sec days).Pairwise
      (fun a b => a.expiry_date ≤ b.expiry_date) := by
  refine ⟨?_, ?_, ?_⟩
  · intro r hr
    simp only [get_expiring_medicines] at hr
    rcases List.mem_filter.mp ((mem_sortByLe _ _ r).mp hr) with ⟨hj, hw⟩
    have hwin : today ≤ r.expiry_date ∧ r.expiry_date ≤ today + (days : Int) := by
      simpa using hw
    refine ⟨hwin, ?_⟩
    rcases List.mem_flatMap.mp hj with ⟨l, _, hrm⟩
    rcases List.mem_map.mp hrm with ⟨m2, _, rfl⟩
    exact daysRemaining_eq _ today sec hs0 hs hwin.1
  · intro l hl h1 h2 hres
    obtain ⟨m2, hm2, hmid⟩ := hres
    refine ⟨⟨m2.name, l.quantity, l.expiry_date,
      daysRemaining l.expiry_date today sec⟩, ?_, rfl, rfl, rfl⟩
    simp only [get_expiring_medicines]
    rw [mem_sortByLe, List.mem_filter]
    constructor
    · apply List.mem_flatMap.mpr
      refine ⟨l, hl, ?_⟩
      apply List.mem_map.mpr
      exact ⟨m2, List.mem_filter.mpr ⟨hm2, by simp [hmid]⟩, rfl⟩
    · simp only [Bool.and_eq_true, decide_eq_true_eq]
      exact ⟨h1, h2⟩
  · simp only [get_expiring_medicines]
    exact (pairwise_sortByLe expRowLe expRowLe_total expRowLe_trans _).imp
      (fun h => by simpa [expRowLe] using h)

/-- Witness for the amended C8: on `db3` at noon, the quantity-0 lot
expiring on day 10 (within the 30-day window) yields a row carrying the
truncated days-remaining value. -/
theorem get_expiring_medicines_spec_w :
    (0 : Int) ≤ 43200 ∧ (43200 : Int) < 86400 ∧ lotE ∈ db3.lots ∧
    (0 : Int) ≤ lotE.expiry_date ∧
    lotE.expiry_date ≤ 0 + ((30 : Nat) : Int) ∧
    (∃ m2 ∈ db3.medicines, m2.id = lotE.medicine_id) ∧
    ∃ r ∈ get_expiring_medicines db3 0 43200 30,
      r.quantity = lotE.quantity ∧ r.expiry_date = lotE.expiry_date ∧
      r.days_remaining = daysRemaining lotE.expiry_date 0 43200 :=
  ⟨by decide, by decide, by decide, by decide, by decide, by decide,
    (get_expiring_medicines_spec db3 0 43200 30 (by decide)
      (by decide)).2.1 lotE (by decide) (by decide) (by decide) (by decide)⟩
